import Mathlib

/-!
# Verification of the InstaSlice reconciliation controller

Shallow embedding of `src/internal/controller/instaslice_controller.go`
(the `Reconcile` state machine, its gating/finalizer helpers and the
placement-policy stubs), together with theorems settling the frozen
claims about the natural-language specification.

Modelling conventions:
* Go maps become association lists (`List (key × value)`); Go map writes
  replace the entry in place or append a fresh key.
* The Kubernetes API client is modelled as a single authoritative store
  (`List Instaslice` plus the `Pod` object).  `List` at the start of a
  pass yields a snapshot equal to the store; every `Get` re-reads the
  current store; every `Update` succeeds and replaces the stored object.
  The explicit error branches of the source (failed `Get`s) are kept as
  separate outcomes guarded by the corresponding `Option` matches.
* Durations are natural numbers counted in seconds (the source only ever
  uses whole-second durations: 1s, 2s, 30s, and `rand.Intn(10)+1` s).
* The health query `isPatternPodRunningAndHealthy` performed inside the
  pass is summarised by an input `oracle : Option Bool`: `none` models
  the query returning an error, `some b` a successful query with verdict
  `b`.  The query itself is embedded separately from the source.
-/

namespace InstaSlice

/-! ## String helpers (models of `strings.Contains` / `strings.HasPrefix`) -/

def listIsPrefix : List Char → List Char → Bool
  | [], _ => true
  | _ :: _, [] => false
  | a :: as, b :: bs => a == b && listIsPrefix as bs

def listContainsSub (pat : List Char) : List Char → Bool
  | [] => listIsPrefix pat []
  | c :: rest => listIsPrefix pat (c :: rest) || listContainsSub pat rest

/-- Model of Go `strings.Contains s pat`. -/
def strContains (s pat : String) : Bool :=
  listContainsSub pat.toList s.toList

/-- Model of Go `strings.HasPrefix s pat`. -/
def strHasPrefix (s pat : String) : Bool :=
  listIsPrefix pat.toList s.toList

/-! ## Data model -/

/-- Go `v1alpha1.AllocationStatus` is a string type (`AllocationStatus(processed)`
casts an arbitrary string); the zero value is the empty string. -/
abbrev AllocationStatus := String

/-- Modelled from the spec: the status constants `AllocationStatusCreating` …
`AllocationStatusDeleted` live in the api package, which is not among the
provided sources; the spec fixes the five-stage progression
`Creating → Created → Ungated → Deleting → Deleted`. -/
def allocationStatusCreating : AllocationStatus := "creating"

def allocationStatusCreated : AllocationStatus := "created"

def allocationStatusUngated : AllocationStatus := "ungated"

def allocationStatusDeleting : AllocationStatus := "deleting"

def allocationStatusDeleted : AllocationStatus := "deleted"

/-- Go `v1alpha1.AllocationDetails` (fields used by the controller). -/
structure AllocationDetails where
  profile : String
  start : Nat
  size : Nat
  podUUID : String
  nodename : String
  allocationStatus : AllocationStatus
  namesp : String
  podName : String
  gpuUUID : String
  resourceIdentifier : String
  cpu : Int
  memory : Int
  deriving DecidableEq, Repr

/-- The zero value `v1alpha1.AllocationDetails{}` returned by the stub policies. -/
def emptyAllocationDetails : AllocationDetails :=
  { profile := "", start := 0, size := 0, podUUID := "", nodename := ""
    allocationStatus := "", namesp := "", podName := "", gpuUUID := ""
    resourceIdentifier := "", cpu := 0, memory := 0 }

/-- Go `v1alpha1.PreparedDetails` (fields used by the controller and its test). -/
structure PreparedDetails where
  podUUID : String
  parent : String
  start : Nat
  size : Nat
  giinfoid : Nat
  ciinfoid : Nat
  deriving DecidableEq, Repr

/-- One row of the static placement table (`Migplacement` entry placements). -/
structure MigPlacementSlot where
  size : Nat
  start : Nat
  deriving DecidableEq, Repr

/-- Go `Migplacement` entry: per-profile device-instance ids and slot options. -/
structure Mig where
  profile : String
  placements : List MigPlacementSlot
  giprofileid : Int
  ciProfileID : Int
  ciEngProfileID : Int
  deriving DecidableEq, Repr

/-- Go `v1alpha1.Instaslice` (one inventory record per node; maps become
association lists).  `gpuuuids` carries the node's discovered device ids,
read by the placement search. -/
structure Instaslice where
  name : String
  allocations : List (String × AllocationDetails)
  prepared : List (String × PreparedDetails)
  migplacement : List Mig
  gpuuuids : List String
  deriving DecidableEq, Repr

inductive PodPhase where
  | pending
  | running
  | succeeded
  | failed
  deriving DecidableEq, Repr

/-- Go `v1.PodCondition` (fields read by the controller). -/
structure PodCondition where
  condType : String
  condStatus : String
  message : String
  deriving DecidableEq, Repr

/-- One workload container: its resource limits as (resource name, quantity). -/
structure Container where
  limits : List (String × Nat)
  deriving DecidableEq, Repr

/-- Go `v1.Pod` (fields read or written by the controller).
`deletionElapsedSec` models the pair (DeletionTimestamp, `time.Since` of it):
`none` means the deletion timestamp is zero, `some e` means deletion was
requested `e` seconds before the current pass. -/
structure Pod where
  name : String
  namesp : String
  uid : String
  phase : PodPhase
  schedulingGates : List String
  finalizers : List String
  conditions : List PodCondition
  containers : List Container
  nodeSelector : List (String × String)
  deletionElapsedSec : Option Nat
  deriving DecidableEq, Repr

/-! ## Named constants

The constants `gateName`, `finalizerName`, `NodeLabel` and
`instaSliceOperatorNamespace` are referenced by the controller but defined
elsewhere in the repository (not among the provided sources). -/

/-- Modelled from the spec: "Exactly one named gate is owned by this system";
the concrete string is immaterial to every claim. -/
def gateName : String := "org.instaslice/accelerator"

/-- Modelled from the spec: the single named cleanup finalizer; the concrete
string is immaterial to every claim. -/
def finalizerName : String := "finalizer.instaslice.codeflare.dev"

/-- Modelled from the spec: the node-affinity selector key ("set one key to the
chosen node name"); the concrete string is immaterial to every claim. -/
def nodeLabel : String := "kubernetes.io/hostname"

/-! ## Store (inventory repository) helpers -/

/-- Replace the value at a key, or append the fresh key (Go map write). -/
def setKV {β : Type} (l : List (String × β)) (k : String) (v : β) : List (String × β) :=
  match l with
  | [] => [(k, v)]
  | (k', v') :: rest => if k' = k then (k, v) :: rest else (k', v') :: setKV rest k v

/-- Go `delete(m, k)`. -/
def delKV {β : Type} (l : List (String × β)) (k : String) : List (String × β) :=
  l.filter (fun e => e.1 ≠ k)

def lookupKV {β : Type} (l : List (String × β)) (k : String) : Option β :=
  (l.find? (fun e => e.1 = k)).map (·.2)

/-- Model of `r.Get(ctx, {Name: name, …}, &instaslice)` against the store. -/
def getInst (store : List Instaslice) (name : String) : Option Instaslice :=
  store.find? (fun i => i.name = name)

/-- Write one allocation entry into the named record of the store
(Get fresh object, set `Spec.Allocations[uuid]`, Update). -/
def setAlloc (store : List Instaslice) (instName uuid : String) (a : AllocationDetails) :
    List Instaslice :=
  store.map (fun i =>
    if i.name = instName then { i with allocations := setKV i.allocations uuid a } else i)

/-- Delete one allocation entry from the named record of the store. -/
def delAlloc (store : List Instaslice) (instName uuid : String) : List Instaslice :=
  store.map (fun i =>
    if i.name = instName then { i with allocations := delKV i.allocations uuid } else i)

/-- The nested `for _, instaslice … for podUuid, allocation …` traversal,
flattened to (record name, map key, allocation) triples in snapshot order. -/
def allocEntries (store : List Instaslice) : List (String × String × AllocationDetails) :=
  store.flatMap (fun i => i.allocations.map (fun e => (i.name, e.1, e.2)))

/-! ## Pod helpers -/

/-- Model of `controllerutil.ContainsFinalizer(pod, finalizerName)`. -/
def containsFinalizer (pod : Pod) : Bool :=
  pod.finalizers.contains finalizerName

/-- Model of `pod.Finalizers = append(pod.Finalizers, finalizerName)`. -/
def addFinalizer (pod : Pod) : Pod :=
  { pod with finalizers := pod.finalizers ++ [finalizerName] }

/-- Model of `controllerutil.RemoveFinalizer(pod, finalizerName)` (the mutation;
its Bool result is `containsFinalizer pod`). -/
def removeFinalizer (pod : Pod) : Pod :=
  { pod with finalizers := pod.finalizers.filter (fun f => f ≠ finalizerName) }

/-- Model of `pod.Spec.NodeSelector[NodeLabel] = node`. -/
def setNodeSelector (pod : Pod) (k v : String) : Pod :=
  { pod with nodeSelector := setKV pod.nodeSelector k v }

/-- Model of `unGatePod` (src 531-538): drops the InstaSlice gate from the
pod's scheduling gates (the source's in-place delete loop, for the single
occurrence the controller owns). -/
def unGatePod (pod : Pod) : Pod :=
  { pod with schedulingGates := pod.schedulingGates.filter (fun g => g ≠ gateName) }

/-- The gate loop of `checkIfPodGatedByInstaSlice` (src 476-485).  `none`
models the out-of-range panic of `pod.Status.Conditions[0]` on an empty
conditions slice; Go's `&&` short-circuit means the read happens only for a
Pending pod carrying the InstaSlice gate. -/
def checkGates (phase : PodPhase) (conditions : List PodCondition) :
    List String → Option Bool
  | [] => some false
  | g :: rest =>
    if g = gateName then
      if phase = PodPhase.pending then
        match conditions with
        | [] => none
        | c :: _ =>
          if strContains c.message "blocked" then some true
          else checkGates phase conditions rest
      else checkGates phase conditions rest
    else checkGates phase conditions rest

def checkIfPodGatedByInstaSlice (pod : Pod) : Option Bool :=
  checkGates pod.phase pod.conditions pod.schedulingGates

/-- Model of `isPodGatedByOthers` (src 488-495). -/
def isPodGatedByOthers (pod : Pod) : Bool :=
  pod.schedulingGates.any (fun g => g ≠ gateName)

/-- Model of `isPatternPodRunningAndHealthy` (src 651-684) applied to the pod
list of the queried namespace: the first pod whose name has the pattern as a
prefix decides; it must be Running and must not have a PodReady condition
that is not ConditionTrue. -/
def isPatternPodRunningAndHealthy (pods : List Pod) (pattern : String) : Bool :=
  match pods with
  | [] => false
  | p :: rest =>
    if strHasPrefix p.name pattern then
      if p.phase ≠ PodPhase.running then false
      else if p.conditions.any (fun c => c.condType = "Ready" ∧ c.condStatus ≠ "True") then false
      else true
    else isPatternPodRunningAndHealthy rest pattern

/-! ## Profile extraction -/

/-- Longest leading digit run of a character list. -/
def takeDigits : List Char → List Char × List Char
  | [] => ([], [])
  | c :: cs =>
    if c.isDigit then
      let p := takeDigits cs
      (c :: p.1, p.2)
    else ([], c :: cs)

/-- Match the regular expression `\d+g\.\d+gb` anchored at the head of the
list (the `\d+` runs are a maximal digit run followed by the non-digit `g`,
so the greedy match is the only one). -/
def matchProfileAt (s : List Char) : Option (List Char) :=
  let p1 := takeDigits s
  if p1.1 = [] then none
  else
    match p1.2 with
    | 'g' :: '.' :: r2 =>
      let p2 := takeDigits r2
      if p2.1 = [] then none
      else
        match p2.2 with
        | 'g' :: 'b' :: _ => some (p1.1 ++ ['g', '.'] ++ p2.1 ++ ['g', 'b'])
        | _ => none
    | _ => none

/-- Leftmost match of `(\d+g\.\d+gb)` (`regexp.FindStringSubmatch`). -/
def findProfileMatch : List Char → Option (List Char)
  | [] => none
  | c :: cs =>
    match matchProfileAt (c :: cs) with
    | some m => some m
    | none => findProfileMatch cs

/-- Model of `extractProfileName` (src 441-454): scan the limit keys in order;
every key containing "mig-" whose name matches the profile pattern overwrites
the result. -/
def extractProfileName (limits : List (String × Nat)) : String :=
  limits.foldl
    (fun acc kv =>
      if strContains kv.1 "mig-" then
        match findProfileMatch kv.1.toList with
        | some m => String.mk m
        | none => acc
      else acc)
    ""

/-- Model of `extractGpuProfile` (src 457-473): the last matching placement
entry with a nonempty placements list wins; only the first placement of each
entry is read. -/
def extractGpuProfile (inst : Instaslice) (profileName : String) :
    Nat × Int × Int × Int :=
  inst.migplacement.foldl
    (fun acc item =>
      if item.profile = profileName then
        match item.placements with
        | [] => acc
        | p :: _ => (p.size, item.giprofileid, item.ciProfileID, item.ciEngProfileID)
      else acc)
    (0, 0, 0, 0)

/-! ## Placement policies -/

/-- Model of `FirstFitPolicy.SetAllocationDetails` (src 581-598).  The
device-instance profile arguments are accepted and, as in the source,
not stored. -/
def FirstFitPolicy.SetAllocationDetails (profileName : String) (newStart size : Nat)
    (podUUID nodename : String) (processed : String)
    (discoveredGiprofile Ciprofileid Ciengprofileid : Int)
    (namesp podName gpuUuid resourceIdentifier : String)
    (cpuMilli memory : Int) : AllocationDetails :=
  { profile := profileName
    start := newStart
    size := size
    podUUID := podUUID
    nodename := nodename
    allocationStatus := processed
    namesp := namesp
    podName := podName
    gpuUUID := gpuUuid
    resourceIdentifier := resourceIdentifier
    cpu := cpuMilli
    memory := memory }

/-- Model of `LeftToRightPolicy.SetAllocationDetails` (src 601-606): the stub
returns the zero-valued `AllocationDetails{}`; its signature has no error
channel at all. -/
def LeftToRightPolicy.SetAllocationDetails (profileName : String) (newStart size : Nat)
    (podUUID nodename : String) (processed : String)
    (discoveredGiprofile Ciprofileid Ciengprofileid : Int)
    (namesp podName gpuUuid : String) : AllocationDetails :=
  emptyAllocationDetails

/-- Model of `RightToLeftPolicy.SetAllocationDetails` (src 609-614): the stub
returns the zero-valued `AllocationDetails{}`; its signature has no error
channel at all. -/
def RightToLeftPolicy.SetAllocationDetails (profileName : String) (newStart size : Nat)
    (podUUID nodename : String) (processed : String)
    (discoveredGiprofile Ciprofileid Ciengprofileid : Int)
    (namesp podName gpuUuid : String) : AllocationDetails :=
  emptyAllocationDetails

/-! ## Placement search (spec-modelled) -/

/-- Half-open ranges `[s1, s1+l1)` and `[s2, s2+l2)` intersect. -/
def rangesOverlap (s1 l1 s2 l2 : Nat) : Bool :=
  decide (s1 < s2 + l2 ∧ s2 < s1 + l1)

/-- A candidate `(gpu, start, size)` is free on the node: no equal prepared
slice and no overlapping allocation range on the same device. -/
def candidateFree (inst : Instaslice) (gpu : String) (start size : Nat) : Bool :=
  !(inst.prepared.any (fun p =>
      p.2.parent = gpu ∧ p.2.start = start ∧ p.2.size = size)) &&
  !(inst.allocations.any (fun a =>
      a.2.gpuUUID = gpu && rangesOverlap a.2.start a.2.size start size))

def podCpuMilli (pod : Pod) : Int :=
  match pod.containers with
  | c :: _ => ((lookupKV c.limits "cpu").getD 0 : Nat)
  | [] => 0

def podMemory (pod : Pod) : Int :=
  match pod.containers with
  | c :: _ => ((lookupKV c.limits "memory").getD 0 : Nat)
  | [] => 0

/-- First free slot for the profile among the node's devices and the
placement-table slots offered for the profile. -/
def firstFreeSlot (inst : Instaslice) (profileName : String) :
    List String → Option (String × Nat × Nat)
  | [] => none
  | gpu :: rest =>
    match
      (inst.migplacement.filter (fun m => m.profile = profileName)).flatMap
          (fun m => m.placements) |>.find?
        (fun slot => candidateFree inst gpu slot.start slot.size) with
    | some slot => some (gpu, slot.start, slot.size)
    | none => firstFreeSlot inst profileName rest

/-- Modelled from the spec: `findNodeAndDeviceForASlice` is called by
`Reconcile` (src 392) but its definition is not among the provided sources.
Per spec §4.2 (first-fit), within one node's record: resolve the placement
table entry for the profile to obtain its size and device-instance ids, walk
the node's devices and offered slots in snapshot order, skip a candidate that
equals a PreparedSlice or overlaps an existing Allocation range on the same
device, and return the first fit as a fully populated allocation (status
`Creating`, pass-through cpu/memory from the workload request); report
failure (`none`, the caller `continue`s) when the node has no fit. -/
def findNodeAndDeviceForASlice (inst : Instaslice) (profileName : String)
    (pod : Pod) : Option AllocationDetails :=
  let p := extractGpuProfile inst profileName
  if p.1 = 0 then none
  else
    match firstFreeSlot inst profileName inst.gpuuuids with
    | none => none
    | some (gpu, start, size) =>
      some (FirstFitPolicy.SetAllocationDetails profileName start size pod.uid
        inst.name allocationStatusCreating p.2.1 p.2.2.1 p.2.2.2
        pod.namesp pod.name gpu pod.uid (podCpuMilli pod) (podMemory pod))

/-! ## Store mutation helpers of the controller -/

/-- Result of the small update helpers: mutated store, returned
`ctrl.Result`, and whether a non-nil error was returned. -/
structure HelperRes where
  store : List Instaslice
  requeue : Bool
  requeueAfterSec : Nat
  isErr : Bool
  deriving DecidableEq, Repr

/-- Model of `deleteInstasliceAllocation` (src 540-560): re-read the record,
delete the entry keyed by the allocation's `PodUUID`, write back.  A failed
read yields (`RequeueAfter 2s`, error). -/
def deleteInstasliceAllocation (store : List Instaslice) (instasliceName : String)
    (allocation : AllocationDetails) : HelperRes :=
  match getInst store instasliceName with
  | none => { store := store, requeue := false, requeueAfterSec := 2, isErr := true }
  | some _ =>
    { store := delAlloc store instasliceName allocation.podUUID
      requeue := false, requeueAfterSec := 0, isErr := false }

/-- Model of `removeInstasliceAllocation` (src 616-624): delete only when the
allocation status is `Deleted`. -/
def removeInstasliceAllocation (store : List Instaslice) (instasliceName : String)
    (allocation : AllocationDetails) : HelperRes :=
  if allocation.allocationStatus = allocationStatusDeleted then
    deleteInstasliceAllocation store instasliceName allocation
  else
    { store := store, requeue := false, requeueAfterSec := 0, isErr := false }

/-- Model of `setInstasliceAllocationToDeleting` (src 626-649): re-read the
record, write the allocation back under `podUUID` with status `Deleting`.
A failed read yields (`Requeue`, error). -/
def setInstasliceAllocationToDeleting (store : List Instaslice) (instasliceName : String)
    (podUUID : String) (allocation : AllocationDetails) : HelperRes :=
  match getInst store instasliceName with
  | none => { store := store, requeue := true, requeueAfterSec := 0, isErr := true }
  | some _ =>
    { store := setAlloc store instasliceName podUUID
        { allocation with allocationStatus := allocationStatusDeleting }
      requeue := false, requeueAfterSec := 0, isErr := false }

/-- Model of `removeInstaSliceFinalizer` (src 562-578): re-read the pod and
drop the finalizer (update succeeds in the model). -/
def removeInstaSliceFinalizer (pod : Pod) : Pod :=
  removeFinalizer pod

/-! ## Reconcile -/

/-- The `ctrl.Result` / error / final object states of one pass. -/
structure ReconcileOutcome where
  requeue : Bool
  requeueAfterSec : Nat
  err : Option String
  pod : Option Pod
  store : List Instaslice
  deriving DecidableEq, Repr

/-- `return ctrl.Result{}, nil`. -/
def doneOut (pod : Option Pod) (store : List Instaslice) : ReconcileOutcome :=
  { requeue := false, requeueAfterSec := 0, err := none, pod := pod, store := store }

/-- `return ctrl.Result{RequeueAfter: n * time.Second}, nil`. -/
def afterOut (n : Nat) (pod : Option Pod) (store : List Instaslice) : ReconcileOutcome :=
  { requeue := false, requeueAfterSec := n, err := none, pod := pod, store := store }

/-- `return ctrl.Result{Requeue: true}, nil`. -/
def requeueOut (pod : Option Pod) (store : List Instaslice) : ReconcileOutcome :=
  { requeue := true, requeueAfterSec := 0, err := none, pod := pod, store := store }

/-- Pod-not-found cleanup loop (src 84-93).  The fetched pod is the
zero-valued `&v1.Pod{}` because `r.Get` failed, so `pod.Name` is the empty
string and the comparison `allocation.PodName == pod.Name` tests against
`""`. -/
def notFoundScan :
    List (String × String × AllocationDetails) → List Instaslice → ReconcileOutcome
  | [], store => doneOut none store
  | (instName, _u, alloc) :: rest, store =>
    if alloc.podName = "" then
      let h := deleteInstasliceAllocation store instName alloc
      if h.isErr then
        { requeue := h.requeue, requeueAfterSec := h.requeueAfterSec
          err := some "error getting latest instaslice object", pod := none, store := h.store }
      else notFoundScan rest h.store
    else notFoundScan rest store

/-- Failed-phase allocation scan (src 124-163). `notFound` mirrors
`allocationNotFound`. -/
def failedScan (store : List Instaslice) (pod : Pod) :
    List (String × String × AllocationDetails) → Bool → ReconcileOutcome
  | [], notFound =>
    if notFound = true ∧ containsFinalizer pod = true then
      doneOut (some (removeFinalizer pod)) store
    else doneOut (some pod) store
  | (instName, _u, alloc) :: rest, notFound =>
    if pod.uid = alloc.podUUID then
      if alloc.allocationStatus = allocationStatusCreating then
        afterOut 2 (some pod) store
      else if alloc.allocationStatus = allocationStatusCreated ∨
          alloc.allocationStatus = allocationStatusUngated then
        let h := setInstasliceAllocationToDeleting store instName pod.uid alloc
        if h.isErr then
          { requeue := h.requeue, requeueAfterSec := h.requeueAfterSec
            err := none, pod := some pod, store := h.store }
        else doneOut (some pod) h.store
      else if alloc.allocationStatus = allocationStatusDeleted then
        let h := removeInstasliceAllocation store instName alloc
        if h.isErr then
          { requeue := h.requeue, requeueAfterSec := h.requeueAfterSec
            err := none, pod := some pod, store := h.store }
        else afterOut 2 (some pod) h.store
      else failedScan store pod rest false
    else failedScan store pod rest notFound

/-- Succeeded-phase allocation scan (src 166-204). -/
def succeededScan (store : List Instaslice) (pod : Pod) :
    List (String × String × AllocationDetails) → Bool → ReconcileOutcome
  | [], notFound =>
    if notFound = true ∧ containsFinalizer pod = true then
      doneOut (some (removeFinalizer pod)) store
    else doneOut (some pod) store
  | (instName, _u, alloc) :: rest, notFound =>
    if alloc.podUUID = pod.uid then
      if alloc.allocationStatus ≠ allocationStatusDeleted then
        let h := setInstasliceAllocationToDeleting store instName pod.uid alloc
        if h.isErr then
          { requeue := h.requeue, requeueAfterSec := h.requeueAfterSec
            err := some "error getting latest instaslice object", pod := some pod, store := h.store }
        else doneOut (some pod) h.store
      else
        let h := removeInstasliceAllocation store instName alloc
        if h.isErr then
          { requeue := h.requeue, requeueAfterSec := h.requeueAfterSec
            err := none, pod := some pod, store := h.store }
        else afterOut 2 (some pod) h.store
    else succeededScan store pod rest notFound

/-- Deletion-requested-while-gated scan (src 208-247): mark a `Created`
allocation `Deleting`; remove a `Deleted` entry together with the finalizer;
always fall through to `done`. -/
def gatedDeletionScan (podUID : String) :
    List (String × String × AllocationDetails) → List Instaslice → Pod → ReconcileOutcome
  | [], store, pod => doneOut (some pod) store
  | (instName, uuid, alloc) :: rest, store, pod =>
    if uuid = podUID ∧ alloc.allocationStatus = allocationStatusCreated then
      match getInst store instName with
      | none => afterOut 1 (some pod) store
      | some _ =>
        gatedDeletionScan podUID rest
          (setAlloc store instName uuid
            { alloc with allocationStatus := allocationStatusDeleting })
          pod
    else if uuid = podUID ∧ alloc.allocationStatus = allocationStatusDeleted then
      let h := removeInstasliceAllocation store instName alloc
      if h.isErr then
        { requeue := h.requeue, requeueAfterSec := h.requeueAfterSec
          err := none, pod := some pod, store := h.store }
      else
        let pod' := if containsFinalizer pod then removeFinalizer pod else pod
        gatedDeletionScan podUID rest h.store pod'
    else gatedDeletionScan podUID rest store pod

/-- Graceful-termination scan (src 249-294): a `Deleted` entry is erased and
the finalizer removed; then, per entry bound to the pod, elapsed > 30s marks
the allocation `Deleting` and the loop continues, otherwise the pass returns
`RequeueAfter (30s - elapsed)`. -/
def gracefulScan (podUID : String) (elapsed : Nat) :
    List (String × String × AllocationDetails) → List Instaslice → Pod → ReconcileOutcome
  | [], store, pod => doneOut (some pod) store
  | (instName, uuid, alloc) :: rest, store, pod =>
    if uuid = podUID then
      if alloc.allocationStatus = allocationStatusDeleted then
        let h := deleteInstasliceAllocation store instName alloc
        if h.isErr then
          { requeue := h.requeue, requeueAfterSec := h.requeueAfterSec
            err := some "error getting latest instaslice object", pod := some pod, store := h.store }
        else
          let pod' := removeInstaSliceFinalizer pod
          if 30 < elapsed then
            match getInst h.store instName with
            | none => requeueOut (some pod') h.store
            | some _ =>
              gracefulScan podUID elapsed rest
                (setAlloc h.store instName uuid
                  { alloc with allocationStatus := allocationStatusDeleting })
                pod'
          else afterOut (30 - elapsed) (some pod') h.store
      else
        if 30 < elapsed then
          match getInst store instName with
          | none => requeueOut (some pod) store
          | some _ =>
            gracefulScan podUID elapsed rest
              (setAlloc store instName uuid
                { alloc with allocationStatus := allocationStatusDeleting })
              pod
        else afterOut (30 - elapsed) (some pod) store
    else gracefulScan podUID elapsed rest store pod

/-- Intermediate state of the gated allocation-progress loop. -/
inductive StepRes where
  | early (o : ReconcileOutcome)
  | cont (store : List Instaslice) (pod : Pod) (gpuOk : Bool)
  deriving DecidableEq, Repr

/-- The crash-recovery check (src 366-384): an allocation already `Ungated`
while the pod is still gated is re-ungated only when `gpuOperatorPodOk`
happens to be set, and otherwise yields `RequeueAfter 2s`. -/
def ungatedCheck (alloc : AllocationDetails) (store : List Instaslice) (pod : Pod)
    (gpuOk : Bool) : StepRes :=
  if alloc.allocationStatus = allocationStatusUngated ∧ alloc.podUUID = pod.uid then
    if gpuOk then
      .cont store (unGatePod (setNodeSelector pod nodeLabel alloc.nodename)) gpuOk
    else .early (afterOut 2 (some pod) store)
  else .cont store pod gpuOk

/-- One iteration of the gated allocation-progress loop (src 321-385): the
`Created` branch queries the health oracle, writes status `Ungated` to the
inventory, and only then branches on the verdict; control then falls through
to the `Ungated` check of the same iteration with the updated local value. -/
def processAllocEntry (oracle : Option Bool) (instName uuid : String)
    (alloc : AllocationDetails) (store : List Instaslice) (pod : Pod)
    (gpuOk : Bool) : StepRes :=
  if alloc.allocationStatus = allocationStatusCreated ∧ alloc.podUUID = pod.uid then
    match oracle with
    | none => .early (afterOut 2 (some pod) store)
    | some ok =>
      match getInst store instName with
      | none => .early (requeueOut (some pod) store)
      | some _ =>
        let alloc' := { alloc with allocationStatus := allocationStatusUngated }
        let store' := setAlloc store instName uuid alloc'
        if ok then
          let pod' := unGatePod (setNodeSelector pod nodeLabel alloc'.nodename)
          ungatedCheck alloc' store' pod' ok
        else .early (afterOut 2 (some pod) store')
  else ungatedCheck alloc store pod gpuOk

def processEntries (oracle : Option Bool) :
    List (String × String × AllocationDetails) → List Instaslice → Pod → Bool → StepRes
  | [], store, pod, gpuOk => .cont store pod gpuOk
  | (instName, uuid, alloc) :: rest, store, pod, gpuOk =>
    match processAllocEntry oracle instName uuid alloc store pod gpuOk with
    | .early o => .early o
    | .cont store' pod' gpuOk' => processEntries oracle rest store' pod' gpuOk'

/-- Placement loop (src 389-425) over the snapshot: the first node whose
search succeeds either hits a still-draining prepared slice (`RequeueAfter
1s`) or receives the new allocation; `none` means no node fits. -/
def placementScan (profileName : String) (pod : Pod) (store : List Instaslice) :
    List Instaslice → Option ReconcileOutcome
  | [] => none
  | inst :: rest =>
    match findNodeAndDeviceForASlice inst profileName pod with
    | none => placementScan profileName pod store rest
    | some allocDetails =>
      if inst.prepared.any (fun item =>
          item.2.parent = allocDetails.gpuUUID ∧ item.2.size = allocDetails.size ∧
            item.2.start = allocDetails.start) then
        some (afterOut 1 (some pod) store)
      else
        match getInst store inst.name with
        | none => some (requeueOut (some pod) store)
        | some _ =>
          some (doneOut (some pod) (setAlloc store inst.name pod.uid allocDetails))

/-- The gated allocation-progress block (src 300-435). -/
def gatedProgress (store : List Instaslice) (pod : Pod) (oracle : Option Bool)
    (randSec : Nat) : ReconcileOutcome :=
  match pod.containers with
  | [c] =>
    let profileName := extractProfileName c.limits
    let podHasNodeAllocation :=
      (allocEntries store).any (fun e => e.2.2.podUUID = pod.uid)
    match processEntries oracle (allocEntries store) store pod false with
    | .early o => o
    | .cont store1 pod1 _ =>
      if podHasNodeAllocation then doneOut (some pod1) store1
      else
        match placementScan profileName pod1 store1 store with
        | some o => o
        | none => afterOut randSec (some pod1) store1
  | _ =>
    { requeue := false, requeueAfterSec := 0
      err := some "multiple containers per pod not supported"
      pod := some pod, store := store }

/-- The pass from the finalizer handling onward (src 112-437), with the
gating verdict already computed. -/
def reconcileCore (store : List Instaslice) (pod : Pod) (isPodGated : Bool)
    (oracle : Option Bool) (randSec : Nat) : ReconcileOutcome :=
  if pod.phase = PodPhase.failed ∧ containsFinalizer pod = true then
    failedScan store pod (allocEntries store) true
  else if pod.phase = PodPhase.succeeded ∧ containsFinalizer pod = true then
    succeededScan store pod (allocEntries store) true
  else
    match pod.deletionElapsedSec with
    | some elapsed =>
      if isPodGated then gatedDeletionScan pod.uid (allocEntries store) store pod
      else if containsFinalizer pod then
        gracefulScan pod.uid elapsed (allocEntries store) store pod
      else doneOut (some pod) store
    | none =>
      if isPodGated then gatedProgress store pod oracle randSec
      else doneOut (some pod) store

/-- The pass once the pod was fetched and is not gated by another system. -/
def reconcileMain (store : List Instaslice) (pod : Pod) (isPodGated : Bool)
    (oracle : Option Bool) (randSec : Nat) : ReconcileOutcome :=
  if isPodGated = false ∧ containsFinalizer pod = false then doneOut (some pod) store
  else
    let pod' :=
      if isPodGated = true ∧ containsFinalizer pod = false then addFinalizer pod else pod
    reconcileCore store pod' isPodGated oracle randSec

/-- Model of `Reconcile` (src 70-438).  `pod? = none` models the requested
pod not being found; `oracle` summarises the health query (`none` = query
error); `randSec` is the sampled `rand.Intn(10)+1`.  The result is `none`
exactly when the pass panics inside `checkIfPodGatedByInstaSlice`. -/
def Reconcile (store : List Instaslice) (pod? : Option Pod) (oracle : Option Bool)
    (randSec : Nat) : Option ReconcileOutcome :=
  match pod? with
  | none => some (notFoundScan (allocEntries store) store)
  | some pod =>
    if isPodGatedByOthers pod then some (doneOut (some pod) store)
    else
      match checkIfPodGatedByInstaSlice pod with
      | none => none
      | some isPodGated => some (reconcileMain store pod isPodGated oracle randSec)

/-! ## Supporting lemmas -/

theorem checkGates_not_pending (phase : PodPhase) (conds : List PodCondition)
    (h : phase ≠ PodPhase.pending) :
    ∀ gates, checkGates phase conds gates = some false := by
  intro gates
  induction gates with
  | nil => rfl
  | cons g rest ih =>
    unfold checkGates
    by_cases hg : g = gateName
    · simp [hg, h, ih]
    · simp [hg, ih]

theorem checkGates_eq_some_true (phase : PodPhase) (conds : List PodCondition) :
    ∀ gates, (checkGates phase conds gates = some true ↔
      gateName ∈ gates ∧ phase = PodPhase.pending ∧
        ∃ c rest, conds = c :: rest ∧ strContains c.message "blocked" = true) := by
  intro gates
  induction gates with
  | nil => simp [checkGates]
  | cons g rest ih =>
    unfold checkGates
    by_cases hg : g = gateName
    · subst hg
      by_cases hp : phase = PodPhase.pending
      · subst hp
        cases conds with
        | nil => simp
        | cons c cs =>
          by_cases hb : strContains c.message "blocked" = true
          · simp [hb]
          · simp [hb, ih]
      · simp [hp, ih]
    · simp [hg, ih, Ne.symm hg]

theorem checkGates_eq_none (phase : PodPhase) (conds : List PodCondition) :
    ∀ gates, (checkGates phase conds gates = none ↔
      gateName ∈ gates ∧ phase = PodPhase.pending ∧ conds = []) := by
  intro gates
  induction gates with
  | nil => simp [checkGates]
  | cons g rest ih =>
    unfold checkGates
    by_cases hg : g = gateName
    · subst hg
      by_cases hp : phase = PodPhase.pending
      · subst hp
        cases conds with
        | nil => simp
        | cons c cs =>
          by_cases hb : strContains c.message "blocked" = true
          · simp [hb]
          · simp [hb, ih]
      · simp [hp, ih]
    · simp [hg, ih, Ne.symm hg]

theorem checkIfPodGated_true_pending (pod : Pod)
    (h : checkIfPodGatedByInstaSlice pod = some true) : pod.phase = PodPhase.pending :=
  ((checkGates_eq_some_true pod.phase pod.conditions pod.schedulingGates).mp h).2.1

theorem setKV_setKV {β : Type} (l : List (String × β)) (k : String) (v : β) :
    setKV (setKV l k v) k v = setKV l k v := by
  induction l with
  | nil => simp [setKV]
  | cons e rest ih =>
    obtain ⟨k', v'⟩ := e
    by_cases hk : k' = k
    · simp [setKV, hk]
    · simp [setKV, hk, ih]

theorem filter_filter_self {α : Type} (p : α → Bool) (l : List α) :
    (l.filter p).filter p = l.filter p := by
  induction l with
  | nil => rfl
  | cons a rest ih =>
    by_cases h : p a = true
    · simp [List.filter_cons, h, ih]
    · simp [List.filter_cons, h, ih]

theorem ungate_set_idem (pod : Pod) (v : String) :
    unGatePod (setNodeSelector (unGatePod (setNodeSelector pod nodeLabel v)) nodeLabel v) =
      unGatePod (setNodeSelector pod nodeLabel v) := by
  simp [unGatePod, setNodeSelector, setKV_setKV, filter_filter_self]

theorem containsFinalizer_addFinalizer (pod : Pod) :
    containsFinalizer (addFinalizer pod) = true := by
  simp [containsFinalizer, addFinalizer]

theorem unGatePod_uid (p : Pod) : (unGatePod p).uid = p.uid := rfl

theorem setNodeSelector_uid (p : Pod) (k v : String) :
    (setNodeSelector p k v).uid = p.uid := rfl

theorem processAllocEntry_skip (oracle : Option Bool) (instName uuid : String)
    (alloc : AllocationDetails) (store : List Instaslice) (pod : Pod) (gpuOk : Bool)
    (h : alloc.podUUID ≠ pod.uid) :
    processAllocEntry oracle instName uuid alloc store pod gpuOk = .cont store pod gpuOk := by
  unfold processAllocEntry ungatedCheck
  simp [h]

theorem processEntries_cons_skip (oracle : Option Bool) (n u : String)
    (a : AllocationDetails) (tail : List (String × String × AllocationDetails))
    (store : List Instaslice) (pod : Pod) (gpuOk : Bool) (h : a.podUUID ≠ pod.uid) :
    processEntries oracle ((n, u, a) :: tail) store pod gpuOk =
      processEntries oracle tail store pod gpuOk := by
  have h1 := processAllocEntry_skip oracle n u a store pod gpuOk h
  simp [processEntries, h1]

theorem processEntries_append_skip (oracle : Option Bool)
    (l rest : List (String × String × AllocationDetails)) (store : List Instaslice)
    (pod : Pod) (gpuOk : Bool) (h : ∀ e ∈ l, e.2.2.podUUID ≠ pod.uid) :
    processEntries oracle (l ++ rest) store pod gpuOk =
      processEntries oracle rest store pod gpuOk := by
  induction l with
  | nil => rfl
  | cons e l' ih =>
    obtain ⟨n, u, a⟩ := e
    have ha : a.podUUID ≠ pod.uid := h (n, u, a) (by simp)
    rw [List.cons_append, processEntries_cons_skip oracle n u a (l' ++ rest) store pod gpuOk ha]
    exact ih (fun e he => h e (by simp [he]))

theorem processEntries_skip (oracle : Option Bool)
    (l : List (String × String × AllocationDetails)) (store : List Instaslice)
    (pod : Pod) (gpuOk : Bool) (h : ∀ e ∈ l, e.2.2.podUUID ≠ pod.uid) :
    processEntries oracle l store pod gpuOk = .cont store pod gpuOk := by
  have := processEntries_append_skip oracle l [] store pod gpuOk h
  simpa using this

theorem failedScan_cons_skip (store : List Instaslice) (pod : Pod) (n u : String)
    (a : AllocationDetails) (tail : List (String × String × AllocationDetails))
    (nf : Bool) (h : pod.uid ≠ a.podUUID) :
    failedScan store pod ((n, u, a) :: tail) nf = failedScan store pod tail nf := by
  simp [failedScan, h]

theorem failedScan_append_skip (store : List Instaslice) (pod : Pod)
    (l rest : List (String × String × AllocationDetails)) (nf : Bool)
    (h : ∀ e ∈ l, e.2.2.podUUID ≠ pod.uid) :
    failedScan store pod (l ++ rest) nf = failedScan store pod rest nf := by
  induction l with
  | nil => rfl
  | cons e l' ih =>
    obtain ⟨n, u, a⟩ := e
    have ha : pod.uid ≠ a.podUUID := Ne.symm (h (n, u, a) (by simp))
    rw [List.cons_append, failedScan_cons_skip store pod n u a (l' ++ rest) nf ha]
    exact ih (fun e he => h e (by simp [he]))

theorem succeededScan_cons_skip (store : List Instaslice) (pod : Pod) (n u : String)
    (a : AllocationDetails) (tail : List (String × String × AllocationDetails))
    (nf : Bool) (h : a.podUUID ≠ pod.uid) :
    succeededScan store pod ((n, u, a) :: tail) nf = succeededScan store pod tail nf := by
  simp [succeededScan, h]

theorem succeededScan_append_skip (store : List Instaslice) (pod : Pod)
    (l rest : List (String × String × AllocationDetails)) (nf : Bool)
    (h : ∀ e ∈ l, e.2.2.podUUID ≠ pod.uid) :
    succeededScan store pod (l ++ rest) nf = succeededScan store pod rest nf := by
  induction l with
  | nil => rfl
  | cons e l' ih =>
    obtain ⟨n, u, a⟩ := e
    have ha : a.podUUID ≠ pod.uid := h (n, u, a) (by simp)
    rw [List.cons_append, succeededScan_cons_skip store pod n u a (l' ++ rest) nf ha]
    exact ih (fun e he => h e (by simp [he]))

theorem gracefulScan_cons_skip (podUID : String) (elapsed : Nat) (n u : String)
    (a : AllocationDetails) (tail : List (String × String × AllocationDetails))
    (store : List Instaslice) (pod : Pod) (h : u ≠ podUID) :
    gracefulScan podUID elapsed ((n, u, a) :: tail) store pod =
      gracefulScan podUID elapsed tail store pod := by
  simp [gracefulScan, h]

theorem gracefulScan_append_skip (podUID : String) (elapsed : Nat)
    (l rest : List (String × String × AllocationDetails)) (store : List Instaslice)
    (pod : Pod) (h : ∀ e ∈ l, e.2.1 ≠ podUID) :
    gracefulScan podUID elapsed (l ++ rest) store pod =
      gracefulScan podUID elapsed rest store pod := by
  induction l with
  | nil => rfl
  | cons e l' ih =>
    obtain ⟨n, u, a⟩ := e
    have ha : u ≠ podUID := h (n, u, a) (by simp)
    rw [List.cons_append, gracefulScan_cons_skip podUID elapsed n u a (l' ++ rest) store pod ha]
    exact ih (fun e he => h e (by simp [he]))

theorem gracefulScan_skip (podUID : String) (elapsed : Nat)
    (l : List (String × String × AllocationDetails)) (store : List Instaslice)
    (pod : Pod) (h : ∀ e ∈ l, e.2.1 ≠ podUID) :
    gracefulScan podUID elapsed l store pod = doneOut (some pod) store := by
  have := gracefulScan_append_skip podUID elapsed l [] store pod h
  simpa using this

/-- Reaching the gated allocation-progress block: a pod that is gated by this
system only, carries the finalizer, and has no deletion timestamp is handled
by `gatedProgress` (the terminal-phase branches cannot fire because a gated
pod is Pending). -/
theorem reconcile_gated_progress (store : List Instaslice) (pod : Pod)
    (oracle : Option Bool) (randSec : Nat)
    (hothers : isPodGatedByOthers pod = false)
    (hgate : checkIfPodGatedByInstaSlice pod = some true)
    (hfin : containsFinalizer pod = true)
    (hdel : pod.deletionElapsedSec = none) :
    Reconcile store (some pod) oracle randSec =
      some (gatedProgress store pod oracle randSec) := by
  have hpending := checkIfPodGated_true_pending pod hgate
  unfold Reconcile reconcileMain reconcileCore
  simp [hothers, hgate, hfin, hdel, hpending]

/-- Reaching `reconcileCore` with the gating verdict `false` for a pod that
carries the finalizer. -/
theorem reconcile_not_gated_core (store : List Instaslice) (pod : Pod)
    (oracle : Option Bool) (randSec : Nat)
    (hothers : isPodGatedByOthers pod = false)
    (hgate : checkIfPodGatedByInstaSlice pod = some false)
    (hfin : containsFinalizer pod = true) :
    Reconcile store (some pod) oracle randSec =
      some (reconcileCore store pod false oracle randSec) := by
  unfold Reconcile reconcileMain
  simp [hothers, hgate, hfin]

/-! ## Sample cluster states used by the concrete theorems -/

def sampleContainer : Container := { limits := [("nvidia.com/mig-1g.5gb", 1)] }

/-- A pod gated by InstaSlice: Pending, carrying the single InstaSlice gate,
the finalizer, and a "blocked" scheduling condition. -/
def samplePodGated : Pod :=
  { name := "w1", namesp := "default", uid := "u1", phase := .pending,
    schedulingGates := [gateName], finalizers := [finalizerName],
    conditions := [{ condType := "PodScheduled", condStatus := "False",
                     message := "pod is blocked" }],
    containers := [sampleContainer], nodeSelector := [], deletionElapsedSec := none }

/-- The same workload once running: gate removed, affinity set. -/
def samplePodRunning : Pod :=
  { samplePodGated with
    phase := .running
    schedulingGates := []
    nodeSelector := [(nodeLabel, "n1")] }

def sampleAlloc (st : AllocationStatus) : AllocationDetails :=
  { profile := "1g.5gb", start := 0, size := 1, podUUID := "u1", nodename := "n1",
    allocationStatus := st, namesp := "default", podName := "w1",
    gpuUUID := "g1", resourceIdentifier := "r1", cpu := 100, memory := 200 }

def sampleInst (a : AllocationDetails) : Instaslice :=
  { name := "n1", allocations := [("u1", a)], prepared := [],
    migplacement := [], gpuuuids := [] }

/-! ## Claims -/

/-- C2 (code bug, evaluation at the failing input): when the requested pod is
not found, the cleanup loop compares each allocation's `PodName` with the
zero-valued fetched pod's empty name.  First conjunct: the orphaned
allocation of the deleted workload `w1` (`podName = "w1"`) is NOT removed and
the pass returns done.  Second conjunct: an allocation whose recorded pod
name is the empty string IS removed, exhibiting that the comparison is
against `""` rather than the deleted workload's identity. -/
theorem claim2_theorem :
    Reconcile [sampleInst (sampleAlloc allocationStatusCreated)] none (some true) 5 =
      some (doneOut none [sampleInst (sampleAlloc allocationStatusCreated)]) ∧
    Reconcile [sampleInst { sampleAlloc allocationStatusCreated with podName := "" }]
        none (some true) 5 =
      some (doneOut none
        [{ sampleInst { sampleAlloc allocationStatusCreated with podName := "" } with
            allocations := [] }]) :=
  ⟨rfl, rfl⟩

/-- C6 (code bug, evaluation at the failing input): a pod still gated by
InstaSlice whose allocation already has status `Ungated` (crash recovery),
with the health oracle reporting healthy, is NOT re-ungated: the pass
performs no mutation and returns `RequeueAfter 2s`, because the branch at
src 368-384 consults the `gpuOperatorPodOk` flag, which is only ever set in
the `Created` branch and therefore remains `false`. -/
theorem claim6_theorem :
    Reconcile [sampleInst (sampleAlloc allocationStatusUngated)] (some samplePodGated)
        (some true) 5 =
      some (afterOut 2 (some samplePodGated)
        [sampleInst (sampleAlloc allocationStatusUngated)]) :=
  rfl

/-- C9 (code bug, evaluation at the failing input): the reserved
`LeftToRightPolicy` and `RightToLeftPolicy` stubs return the zero-valued
`AllocationDetails{}` on every input; their signature carries no error
channel, so no "unimplemented" error can be raised. -/
theorem claim9_theorem :
    LeftToRightPolicy.SetAllocationDetails "1g.5gb" 0 1 "u1" "n1" "creating" 0 0 0
        "default" "w1" "g1" = emptyAllocationDetails ∧
    RightToLeftPolicy.SetAllocationDetails "1g.5gb" 0 1 "u1" "n1" "creating" 0 0 0
        "default" "w1" "g1" = emptyAllocationDetails :=
  ⟨rfl, rfl⟩

/-- C10: `checkIfPodGatedByInstaSlice` returns `true` exactly for a pod that
carries the InstaSlice gate, has phase Pending, and whose first status
condition's message contains "blocked"; and the read of the first condition
is out of bounds (modelled as `none`) exactly for a Pending pod carrying the
gate whose status-conditions list is empty. -/
theorem claim10_theorem (pod : Pod) :
    (checkIfPodGatedByInstaSlice pod = some true ↔
      gateName ∈ pod.schedulingGates ∧ pod.phase = PodPhase.pending ∧
        ∃ c rest, pod.conditions = c :: rest ∧ strContains c.message "blocked" = true) ∧
    (checkIfPodGatedByInstaSlice pod = none ↔
      gateName ∈ pod.schedulingGates ∧ pod.phase = PodPhase.pending ∧
        pod.conditions = []) :=
  ⟨checkGates_eq_some_true pod.phase pod.conditions pod.schedulingGates,
   checkGates_eq_none pod.phase pod.conditions pod.schedulingGates⟩

/-- C10 witness: both characterisations are inhabited — the sample gated pod
is recognised, and the same pod with an empty conditions list makes the read
out of bounds. -/
theorem claim10_witness :
    checkIfPodGatedByInstaSlice samplePodGated = some true ∧
    checkIfPodGatedByInstaSlice { samplePodGated with conditions := [] } = none :=
  ⟨(claim10_theorem samplePodGated).1.mpr
      ⟨by decide, rfl, ⟨_, _, rfl, by decide⟩⟩,
   (claim10_theorem { samplePodGated with conditions := [] }).2.mpr
      ⟨by decide, rfl, rfl⟩⟩

/-- C8: a workload already in the `Ungated` steady state — gate removed,
finalizer present, running, no deletion requested — is untouched by a
reconcile pass: the returned pod and every inventory record are exactly the
inputs and the directive is done with no requeue. -/
theorem claim8_theorem (store : List Instaslice) (pod : Pod) (oracle : Option Bool)
    (randSec : Nat)
    (hgates : pod.schedulingGates = [])
    (hfin : containsFinalizer pod = true)
    (hphase : pod.phase = PodPhase.running)
    (hdel : pod.deletionElapsedSec = none) :
    Reconcile store (some pod) oracle randSec = some (doneOut (some pod) store) := by
  have hothers : isPodGatedByOthers pod = false := by
    simp [isPodGatedByOthers, hgates]
  have hgate : checkIfPodGatedByInstaSlice pod = some false := by
    unfold checkIfPodGatedByInstaSlice
    rw [hgates]
    rfl
  rw [reconcile_not_gated_core store pod oracle randSec hothers hgate hfin]
  unfold reconcileCore
  simp [hphase, hdel]

/-- C8 witness: the steady-state pod with its `Ungated` allocation is left
untouched by a pass. -/
theorem claim8_witness :
    Reconcile [sampleInst (sampleAlloc allocationStatusUngated)] (some samplePodRunning)
        (some true) 5 =
      some (doneOut (some samplePodRunning)
        [sampleInst (sampleAlloc allocationStatusUngated)]) :=
  claim8_theorem [sampleInst (sampleAlloc allocationStatusUngated)] samplePodRunning
    (some true) 5 rfl (by decide) rfl rfl

/-- C3: a gated workload whose pod spec does not have exactly one container
(in particular one with two resource-unit requests, i.e. two containers)
makes the pass return the configuration error "multiple containers per pod
not supported" with an empty `ctrl.Result` — no requeue is requested and no
inventory record is mutated. -/
theorem claim3_theorem (store : List Instaslice) (pod : Pod) (oracle : Option Bool)
    (randSec : Nat)
    (hothers : isPodGatedByOthers pod = false)
    (hgate : checkIfPodGatedByInstaSlice pod = some true)
    (hfin : containsFinalizer pod = true)
    (hdel : pod.deletionElapsedSec = none)
    (hmulti : 1 < pod.containers.length) :
    Reconcile store (some pod) oracle randSec =
      some { requeue := false, requeueAfterSec := 0,
             err := some "multiple containers per pod not supported",
             pod := some pod, store := store } := by
  rw [reconcile_gated_progress store pod oracle randSec hothers hgate hfin hdel]
  rcases hcs : pod.containers with _ | ⟨c, _ | ⟨c2, cs⟩⟩
  · rw [hcs] at hmulti
    simp at hmulti
  · rw [hcs] at hmulti
    simp at hmulti
  · simp [gatedProgress, hcs]

/-- C3 witness: the gated two-container pod draws the configuration error and
leaves the inventory untouched. -/
theorem claim3_witness :
    Reconcile [sampleInst (sampleAlloc allocationStatusCreated)]
        (some { samplePodGated with containers := [sampleContainer, sampleContainer] })
        (some true) 5 =
      some { requeue := false, requeueAfterSec := 0,
             err := some "multiple containers per pod not supported",
             pod := some { samplePodGated with containers := [sampleContainer, sampleContainer] },
             store := [sampleInst (sampleAlloc allocationStatusCreated)] } :=
  claim3_theorem [sampleInst (sampleAlloc allocationStatusCreated)]
    { samplePodGated with containers := [sampleContainer, sampleContainer] }
    (some true) 5 (by decide) (by decide) (by decide) rfl (by decide)

/-- C7 counterexample: a gated pod without the finalizer, an empty inventory
and sampled backoff 5s.  The pass adds the finalizer and then CONTINUES into
the allocation branch of the same pass, ending in `RequeueAfter 5s`
(`Requeue = false`) — not the retry-now directive the claim asserts. -/
theorem claim7_counterexample :
    Reconcile [] (some { samplePodGated with finalizers := [] }) (some true) 5 =
      some (afterOut 5 (some (addFinalizer { samplePodGated with finalizers := [] })) []) :=
  rfl

/-- C7 (amended): for a pod gated by this system without the finalizer, the
pass adds the finalizer and continues processing the remaining branches in
the same pass — its outcome equals that of a pass on the workload with the
finalizer already present; retry-now is returned only if the finalizer
update fails (updates succeed in this model). -/
theorem claim7_theorem (store : List Instaslice) (pod : Pod) (oracle : Option Bool)
    (randSec : Nat)
    (hothers : isPodGatedByOthers pod = false)
    (hgate : checkIfPodGatedByInstaSlice pod = some true)
    (hfin : containsFinalizer pod = false) :
    Reconcile store (some pod) oracle randSec =
      Reconcile store (some (addFinalizer pod)) oracle randSec := by
  have hothers2 : isPodGatedByOthers (addFinalizer pod) = false := hothers
  have hgate2 : checkIfPodGatedByInstaSlice (addFinalizer pod) = some true := hgate
  unfold Reconcile reconcileMain
  simp [hothers, hothers2, hgate, hgate2, hfin, containsFinalizer_addFinalizer]

/-- C7 witness: the amended equivalence at the sample gated pod without the
finalizer. -/
theorem claim7_witness :
    Reconcile [] (some { samplePodGated with finalizers := [] }) (some true) 5 =
      Reconcile [] (some (addFinalizer { samplePodGated with finalizers := [] }))
        (some true) 5 :=
  claim7_theorem [] { samplePodGated with finalizers := [] } (some true) 5
    (by decide) (by decide) (by decide)

/-- C4 counterexample: a SUCCEEDED pod with the finalizer whose bound
allocation has status `Creating`.  The claim asserts that for every terminal
phase (failed or succeeded) the pass performs no mutation and returns
`RequeueAfter 2s`; the code instead moves the allocation to `Deleting` and
returns done. -/
theorem claim4_counterexample :
    Reconcile [sampleInst (sampleAlloc allocationStatusCreating)]
        (some { samplePodRunning with phase := .succeeded }) (some true) 5 =
      some (doneOut (some { samplePodRunning with phase := .succeeded })
        [sampleInst (sampleAlloc allocationStatusDeleting)]) ∧
    [sampleInst (sampleAlloc allocationStatusDeleting)] ≠
      [sampleInst (sampleAlloc allocationStatusCreating)] := by
  constructor
  · rfl
  · decide

/-- C4 (amended): for a workload with the finalizer whose bound allocation
has status `Creating`: in the FAILED phase the pass performs no mutation and
returns `RequeueAfter 2s`; in the SUCCEEDED phase it instead sets the
allocation to `Deleting` (the `!= Deleted` branch) and returns done. -/
theorem claim4_theorem (store : List Instaslice) (pod : Pod) (oracle : Option Bool)
    (randSec : Nat) (pre post : List (String × String × AllocationDetails))
    (instName uuid : String) (alloc : AllocationDetails)
    (hothers : isPodGatedByOthers pod = false)
    (hfin : containsFinalizer pod = true)
    (hsplit : allocEntries store = pre ++ (instName, uuid, alloc) :: post)
    (hpre : ∀ e ∈ pre, e.2.2.podUUID ≠ pod.uid)
    (hmatch : alloc.podUUID = pod.uid)
    (hstatus : alloc.allocationStatus = allocationStatusCreating)
    (hget : (getInst store instName).isSome = true) :
    (pod.phase = PodPhase.failed →
      Reconcile store (some pod) oracle randSec = some (afterOut 2 (some pod) store)) ∧
    (pod.phase = PodPhase.succeeded →
      Reconcile store (some pod) oracle randSec =
        some (doneOut (some pod)
          (setAlloc store instName pod.uid
            { alloc with allocationStatus := allocationStatusDeleting }))) := by
  obtain ⟨inst, hi⟩ := Option.isSome_iff_exists.mp hget
  constructor
  · intro hphase
    have hgate : checkIfPodGatedByInstaSlice pod = some false :=
      checkGates_not_pending pod.phase pod.conditions (by simp [hphase])
        pod.schedulingGates
    rw [reconcile_not_gated_core store pod oracle randSec hothers hgate hfin]
    unfold reconcileCore
    rw [if_pos ⟨hphase, hfin⟩, hsplit,
      failedScan_append_skip store pod pre _ true hpre]
    unfold failedScan
    rw [if_pos hmatch.symm, if_pos hstatus]
  · intro hphase
    have hgate : checkIfPodGatedByInstaSlice pod = some false :=
      checkGates_not_pending pod.phase pod.conditions (by simp [hphase])
        pod.schedulingGates
    rw [reconcile_not_gated_core store pod oracle randSec hothers hgate hfin]
    unfold reconcileCore
    rw [if_neg (fun hc => by simp [hphase] at hc), if_pos ⟨hphase, hfin⟩, hsplit,
      succeededScan_append_skip store pod pre _ true hpre]
    unfold succeededScan
    rw [if_pos hmatch]
    have hne : alloc.allocationStatus ≠ allocationStatusDeleted := by
      rw [hstatus]
      decide
    rw [if_pos hne]
    unfold setInstasliceAllocationToDeleting
    rw [hi]
    rfl

/-- C4 witness: the amended behaviour at the sample workload, once failed and
once succeeded. -/
theorem claim4_witness :
    Reconcile [sampleInst (sampleAlloc allocationStatusCreating)]
        (some { samplePodRunning with phase := .failed }) (some true) 5 =
      some (afterOut 2 (some { samplePodRunning with phase := .failed })
        [sampleInst (sampleAlloc allocationStatusCreating)]) ∧
    Reconcile [sampleInst (sampleAlloc allocationStatusCreating)]
        (some { samplePodRunning with phase := .succeeded }) (some false) 5 =
      some (doneOut (some { samplePodRunning with phase := .succeeded })
        (setAlloc [sampleInst (sampleAlloc allocationStatusCreating)] "n1" "u1"
          { sampleAlloc allocationStatusCreating with
              allocationStatus := allocationStatusDeleting })) :=
  ⟨(claim4_theorem [sampleInst (sampleAlloc allocationStatusCreating)]
      { samplePodRunning with phase := .failed } (some true) 5 [] [] "n1" "u1"
      (sampleAlloc allocationStatusCreating) (by decide) (by decide) rfl (by simp)
      rfl rfl rfl).1 rfl,
   (claim4_theorem [sampleInst (sampleAlloc allocationStatusCreating)]
      { samplePodRunning with phase := .succeeded } (some false) 5 [] [] "n1" "u1"
      (sampleAlloc allocationStatusCreating) (by decide) (by decide) rfl (by simp)
      rfl rfl rfl).2 rfl⟩

/-- C5: a no-longer-gated running workload carrying the finalizer whose
deletion was requested, with its bound allocation (keyed by the pod UID)
still `Created`: while the elapsed time is under 30s the pass performs no
mutation and requests a delay of exactly the remaining time; once the
elapsed time exceeds 30s the pass sets the allocation's status to `Deleting`
and returns done. -/
theorem claim5_theorem (store : List Instaslice) (pod : Pod) (oracle : Option Bool)
    (randSec elapsed : Nat) (pre post : List (String × String × AllocationDetails))
    (instName : String) (alloc : AllocationDetails)
    (hothers : isPodGatedByOthers pod = false)
    (hgate : checkIfPodGatedByInstaSlice pod = some false)
    (hfin : containsFinalizer pod = true)
    (hphase : pod.phase = PodPhase.running)
    (hdel : pod.deletionElapsedSec = some elapsed)
    (hsplit : allocEntries store = pre ++ (instName, pod.uid, alloc) :: post)
    (hpre : ∀ e ∈ pre, e.2.1 ≠ pod.uid)
    (hpost : ∀ e ∈ post, e.2.1 ≠ pod.uid)
    (hstatus : alloc.allocationStatus = allocationStatusCreated)
    (hget : (getInst store instName).isSome = true) :
    (elapsed < 30 →
      Reconcile store (some pod) oracle randSec =
        some (afterOut (30 - elapsed) (some pod) store)) ∧
    (30 < elapsed →
      Reconcile store (some pod) oracle randSec =
        some (doneOut (some pod)
          (setAlloc store instName pod.uid
            { alloc with allocationStatus := allocationStatusDeleting }))) := by
  obtain ⟨inst, hi⟩ := Option.isSome_iff_exists.mp hget
  have hne : alloc.allocationStatus ≠ allocationStatusDeleted := by
    rw [hstatus]
    decide
  have hcore : Reconcile store (some pod) oracle randSec =
      some (gracefulScan pod.uid elapsed
        ((instName, pod.uid, alloc) :: post) store pod) := by
    rw [reconcile_not_gated_core store pod oracle randSec hothers hgate hfin]
    unfold reconcileCore
    rw [if_neg (fun hc => by simp [hphase] at hc),
      if_neg (fun hc => by simp [hphase] at hc), hdel]
    simp only [Bool.false_eq_true, if_false, hfin, if_true, reduceIte]
    rw [hsplit, gracefulScan_append_skip pod.uid elapsed pre _ store pod hpre]
  constructor
  · intro hlt
    have h30 : ¬ 30 < elapsed := by omega
    rw [hcore]
    unfold gracefulScan
    rw [if_pos rfl, if_neg hne, if_neg h30]
  · intro hgt
    rw [hcore]
    unfold gracefulScan
    rw [if_pos rfl, if_neg hne, if_pos hgt, hi]
    exact congrArg some
      (gracefulScan_skip pod.uid elapsed post
        (setAlloc store instName pod.uid
          { alloc with allocationStatus := allocationStatusDeleting }) pod hpost)

/-- C5 witness: scenario B — at T+10s the pass requests a delay of 20s with
no mutation; at T+31s it sets the allocation to `Deleting`. -/
theorem claim5_witness :
    Reconcile [sampleInst (sampleAlloc allocationStatusCreated)]
        (some { samplePodRunning with deletionElapsedSec := some 10 }) none 5 =
      some (afterOut 20 (some { samplePodRunning with deletionElapsedSec := some 10 })
        [sampleInst (sampleAlloc allocationStatusCreated)]) ∧
    Reconcile [sampleInst (sampleAlloc allocationStatusCreated)]
        (some { samplePodRunning with deletionElapsedSec := some 31 }) none 5 =
      some (doneOut (some { samplePodRunning with deletionElapsedSec := some 31 })
        (setAlloc [sampleInst (sampleAlloc allocationStatusCreated)] "n1" "u1"
          { sampleAlloc allocationStatusCreated with
              allocationStatus := allocationStatusDeleting })) :=
  ⟨(claim5_theorem [sampleInst (sampleAlloc allocationStatusCreated)]
      { samplePodRunning with deletionElapsedSec := some 10 } none 5 10 [] [] "n1"
      (sampleAlloc allocationStatusCreated) (by decide) (by decide) (by decide) rfl rfl
      rfl (by simp) (by simp) rfl rfl).1 (by decide),
   (claim5_theorem [sampleInst (sampleAlloc allocationStatusCreated)]
      { samplePodRunning with deletionElapsedSec := some 31 } none 5 31 [] [] "n1"
      (sampleAlloc allocationStatusCreated) (by decide) (by decide) (by decide) rfl rfl
      rfl (by simp) (by simp) rfl rfl).2 (by decide)⟩

/-- C1 counterexample: a gated pod with a `Created` allocation and the health
query succeeding with an UNHEALTHY verdict.  The claim asserts that on an
unhealthy report the pass performs no mutation; the code has already written
status `Ungated` into the inventory (src 340-348) before branching on the
verdict, so the store IS mutated, and only then does the pass return
`RequeueAfter 2s` with the gate still in place. -/
theorem claim1_counterexample :
    Reconcile [sampleInst (sampleAlloc allocationStatusCreated)] (some samplePodGated)
        (some false) 5 =
      some (afterOut 2 (some samplePodGated)
        [sampleInst (sampleAlloc allocationStatusUngated)]) ∧
    [sampleInst (sampleAlloc allocationStatusUngated)] ≠
      [sampleInst (sampleAlloc allocationStatusCreated)] := by
  constructor
  · rfl
  · decide

/-- C1 (amended): for a gated workload whose unique bound allocation has
status `Created`: when the health query ERRORS the pass performs no mutation
and returns `RequeueAfter 2s`; when the query succeeds with an unhealthy
verdict the pass still writes status `Ungated` to the inventory (but leaves
the gate) and returns `RequeueAfter 2s`; when the query reports healthy the
pass writes status `Ungated`, attaches the node selector naming the
allocated node, removes the gate, and returns done. -/
theorem claim1_theorem (store : List Instaslice) (pod : Pod) (randSec : Nat)
    (pre post : List (String × String × AllocationDetails)) (instName uuid : String)
    (alloc : AllocationDetails)
    (hothers : isPodGatedByOthers pod = false)
    (hgate : checkIfPodGatedByInstaSlice pod = some true)
    (hfin : containsFinalizer pod = true)
    (hdel : pod.deletionElapsedSec = none)
    (hcont : ∃ c, pod.containers = [c])
    (hsplit : allocEntries store = pre ++ (instName, uuid, alloc) :: post)
    (hpre : ∀ e ∈ pre, e.2.2.podUUID ≠ pod.uid)
    (hpost : ∀ e ∈ post, e.2.2.podUUID ≠ pod.uid)
    (hmatch : alloc.podUUID = pod.uid)
    (hstatus : alloc.allocationStatus = allocationStatusCreated)
    (hget : (getInst store instName).isSome = true) :
    (Reconcile store (some pod) none randSec = some (afterOut 2 (some pod) store)) ∧
    (Reconcile store (some pod) (some false) randSec =
      some (afterOut 2 (some pod)
        (setAlloc store instName uuid
          { alloc with allocationStatus := allocationStatusUngated }))) ∧
    (Reconcile store (some pod) (some true) randSec =
      some (doneOut (some (unGatePod (setNodeSelector pod nodeLabel alloc.nodename)))
        (setAlloc store instName uuid
          { alloc with allocationStatus := allocationStatusUngated }))) := by
  obtain ⟨c, hc⟩ := hcont
  obtain ⟨inst, hi⟩ := Option.isSome_iff_exists.mp hget
  have hub : (allocEntries store).any (fun e => e.2.2.podUUID = pod.uid) = true := by
    rw [hsplit]
    simp [hmatch]
  have hentry : ∀ oracle : Option Bool,
      processEntries oracle (allocEntries store) store pod false =
        processEntries oracle ((instName, uuid, alloc) :: post) store pod false := by
    intro oracle
    rw [hsplit]
    exact processEntries_append_skip oracle pre _ store pod false hpre
  refine ⟨?_, ?_, ?_⟩
  · rw [reconcile_gated_progress store pod none randSec hothers hgate hfin hdel]
    have hproc : processEntries none (allocEntries store) store pod false =
        .early (afterOut 2 (some pod) store) := by
      rw [hentry none]
      simp [processEntries, processAllocEntry, hstatus, hmatch]
    simp [gatedProgress, hc, hproc]
  · rw [reconcile_gated_progress store pod (some false) randSec hothers hgate hfin hdel]
    have hproc : processEntries (some false) (allocEntries store) store pod false =
        .early (afterOut 2 (some pod)
          (setAlloc store instName uuid
            { alloc with allocationStatus := allocationStatusUngated })) := by
      rw [hentry (some false)]
      simp [processEntries, processAllocEntry, hstatus, hmatch, hi]
    simp [gatedProgress, hc, hproc]
  · rw [reconcile_gated_progress store pod (some true) randSec hothers hgate hfin hdel]
    have hpost2 : ∀ e ∈ post, e.2.2.podUUID ≠
        (unGatePod (setNodeSelector (unGatePod (setNodeSelector pod nodeLabel
          alloc.nodename)) nodeLabel alloc.nodename)).uid :=
      fun e he => hpost e he
    have hproc : processEntries (some true) (allocEntries store) store pod false =
        .cont (setAlloc store instName uuid
            { alloc with allocationStatus := allocationStatusUngated })
          (unGatePod (setNodeSelector pod nodeLabel alloc.nodename)) true := by
      rw [hentry (some true)]
      have hcons : processEntries (some true) ((instName, uuid, alloc) :: post) store pod
          false =
          processEntries (some true) post
            (setAlloc store instName uuid
              { alloc with allocationStatus := allocationStatusUngated })
            (unGatePod (setNodeSelector (unGatePod (setNodeSelector pod nodeLabel
              alloc.nodename)) nodeLabel alloc.nodename)) true := by
        simp [processEntries, processAllocEntry, ungatedCheck, hstatus, hmatch, hi,
          unGatePod_uid, setNodeSelector_uid]
      rw [hcons, processEntries_skip (some true) post _ _ true hpost2,
        ungate_set_idem pod alloc.nodename]
    simp [gatedProgress, hc, hproc, hub]

/-- C1 witness: the healthy-report case of the amended claim at the sample
state — status becomes `Ungated`, the node selector is attached and the gate
removed, with directive done. -/
theorem claim1_witness :
    Reconcile [sampleInst (sampleAlloc allocationStatusCreated)] (some samplePodGated)
        (some true) 5 =
      some (doneOut
        (some (unGatePod (setNodeSelector samplePodGated nodeLabel "n1")))
        (setAlloc [sampleInst (sampleAlloc allocationStatusCreated)] "n1" "u1"
          { sampleAlloc allocationStatusCreated with
              allocationStatus := allocationStatusUngated })) :=
  (claim1_theorem [sampleInst (sampleAlloc allocationStatusCreated)] samplePodGated 5
    [] [] "n1" "u1" (sampleAlloc allocationStatusCreated) (by decide) (by decide)
    (by decide) rfl ⟨sampleContainer, rfl⟩ rfl (by simp) (by simp) rfl rfl rfl).2.2

end InstaSlice
